import Mathlib

/-!
Verification of the HIGs-PDF document-assembly pipeline.

Shallow embedding of the pure computational core of:
  * `src/pdf_generator.py` — section page-number computation, the contents-page
    fixed-point iteration, completion-order handling, content-hash dedup,
    and the CSS-pixel → PDF-point rectangle conversion;
  * `src/pdf_merger.py`    — bookmark target pages, TOC link processing, and the
    write/annotate/atomic-replace file-system effects;
  * `src/url_discovery.py` — URL normalization and the breadth-first crawl loop.

I/O (browser control, PDF toolkit internals) is abstracted: page counts of
rendered artifacts become explicit inputs, the web becomes a function from
URLs to optional link lists, and the file system becomes an explicit map
from paths to document values.
-/

/-! ## Pagination (src/pdf_generator.py, lines 323-357) -/

/-- From `pdf_generator.py` lines 324-328: starting at `current_page = 1 + cover_pages`,
each section's starting page number is recorded before adding its page count. -/
def pageNumbersAux (current : Nat) : List Nat → List Nat
  | [] => []
  | c :: cs => current :: pageNumbersAux (current + c) cs

/-- Page numbers of the sections given the cover page count and each section's
page count (`pdf_generator.py` lines 324-329). These numbers count the cover
but not the contents page. -/
def computePageNumbers (coverPages : Nat) (counts : List Nat) : List Nat :=
  pageNumbersAux (1 + coverPages) counts

/-- From `pdf_generator.py` line 336: the numbers displayed on the contents page are
the stored page numbers shifted by the current contents-page-count guess. -/
def displaySectionsInfo (info : List (String × Nat)) (indexPages : Nat) :
    List (String × Nat) :=
  info.map (fun s => (s.1, s.2 + indexPages))

/-- From `pdf_generator.py` lines 335-357: the contents-page iteration.  `f guess` is
the measured physical page count of the contents page rendered with displayed
numbers computed from `guess`.  Each attempt measures; on equality the loop
breaks with the guess unchanged, otherwise the guess becomes the measurement.
Returns the final `index_pages` value and whether a fixed point was detected. -/
def contentsLoop (f : Nat → Nat) : Nat → Nat → Nat × Bool
  | 0, guess => (guess, false)
  | fuel + 1, guess =>
    if f guess = guess then (guess, true) else contentsLoop f fuel (f guess)

/-- The code runs the loop with initial guess `1` and at most `3` attempts
(`pdf_generator.py` lines 333-335). -/
def contentsIteration (f : Nat → Nat) : Nat × Bool :=
  contentsLoop f 3 1

/-! ## Merger bookmark and link computations (src/pdf_merger.py, lines 57-117) -/

/-- From `pdf_merger.py` line 62: `dest_page = (page_number - 1) + index_pages`,
Python integer arithmetic. -/
def bookmarkDestPage (pageNumber : Nat) (indexPages : Nat) : Int :=
  (pageNumber : Int) - 1 + (indexPages : Int)

/-- From `pdf_merger.py` lines 57-74: for file `idx = 1, 2, ...` (the entries of
`generated_list[2:]`) the loop reads `sections_info[idx - 1]`; an out-of-range
index raises and is skipped by the `except` clause, so exactly the first
`min numFiles (length info)` sections get an outline entry, in order, each
targeting `(page_number - 1) + index_pages`. -/
def mergeBookmarks (info : List (String × Nat)) (numFiles : Nat)
    (indexPages : Nat) : List (String × Int) :=
  (info.take numFiles).map (fun s => (s.1, bookmarkDestPage s.2 indexPages))

/-- One entry of the `toc_links` list handed to `merge_pdfs`
(`pdf_generator.py` `_extract_index_link_rects` output shape). -/
structure TocLink where
  idx : Int
  indexPage : Int
  rect : Option (List ℚ)
deriving DecidableEq

/-- From `pdf_merger.py` lines 91-115: guards and page computations for one TOC link.
Returns `some (srcPage, destPage, rect)` when the link is actually added, and
`none` when any `continue` guard fires. -/
def processTocLink (info : List (String × Nat)) (coverPages indexPages : Nat)
    (numPages : Nat) (l : TocLink) : Option (Int × Int × List ℚ) :=
  if l.idx ≤ 0 then none
  else
    match l.rect with
    | none => none
    | some r =>
      if (info.length : Int) < l.idx then none
      else
        match info.get? (l.idx.toNat - 1) with
        | none => none
        | some s =>
          let src : Int := (coverPages : Int) + l.indexPage
          let dest : Int := bookmarkDestPage s.2 indexPages
          if src < 0 ∨ (numPages : Int) ≤ src then none
          else if dest < 0 ∨ (numPages : Int) ≤ dest then none
          else some (src, dest, r)

/-! ## Merger file-system effects (src/pdf_merger.py, lines 79-125) -/

/-- Abstract content of a file the merge phase can write. -/
inductive MergedDoc where
  /-- The link-free merged document with its bookmarks (written at line 81). -/
  | mergedOnly (bookmarks : List (String × Int))
  /-- The link-annotated document (written to the temp file, lines 119-123). -/
  | annotated (bookmarks : List (String × Int)) (links : List (Int × Int × List ℚ))
  /-- A half-written file left by an interrupted write. -/
  | partialWrite
deriving DecidableEq

/-- Where, if anywhere, the annotate-and-replace phase is interrupted. -/
inductive FailPoint where
  | noFail
  | beforeTempWrite
  | duringTempWrite
  | beforeRename
deriving DecidableEq

/-- From `pdf_merger.py` lines 79-125 as an explicit file-system transformer.
`fs` maps paths to file contents.  The initial `merger.write(merged_path)`
always happens; the annotate phase runs only when `tocLinksEmpty = false`:
it writes the annotated document to a fresh temp file and then atomically
renames it over `mergedPath` (`os.replace`, line 125).  An interruption
(`FailPoint` other than `noFail`) raises, so the rename never happens and the
outer `except` makes the function return `none`. -/
def mergeWritePhase (fs : String → Option MergedDoc) (mergedPath tmpPath : String)
    (bms : List (String × Int)) (links : List (Int × Int × List ℚ))
    (tocLinksEmpty : Bool) (fp : FailPoint) :
    (String → Option MergedDoc) × Option String :=
  let fs1 : String → Option MergedDoc :=
    fun q => if q = mergedPath then some (MergedDoc.mergedOnly bms) else fs q
  if tocLinksEmpty then (fs1, some mergedPath)
  else
    match fp with
    | FailPoint.beforeTempWrite => (fs1, none)
    | FailPoint.duringTempWrite =>
      (fun q => if q = tmpPath then some MergedDoc.partialWrite else fs1 q, none)
    | FailPoint.beforeRename =>
      (fun q => if q = tmpPath then some (MergedDoc.annotated bms links) else fs1 q,
       none)
    | FailPoint.noFail =>
      let fs2 : String → Option MergedDoc :=
        fun q => if q = tmpPath then some (MergedDoc.annotated bms links) else fs1 q
      (fun q =>
        if q = tmpPath then none
        else if q = mergedPath then some (MergedDoc.annotated bms links)
        else fs2 q,
       some mergedPath)

/-! ## Render results: completion order and sorting (src/pdf_generator.py, lines 299-321) -/

/-- One successful per-URL render result (`pdf_generator.py` line 239):
`idx` is the 1-based discovery sequence index from `enumerate(article_list, 1)`. -/
structure ArticleResult where
  idx : Nat
  title : String
  path : String
deriving DecidableEq

/-- From `pdf_generator.py` lines 317-318: drop the `None` results of failed or
deduplicated renders, then sort by the discovery sequence index
(`generated_articles.sort(key=lambda r: r["idx"])`).  The input list is the
per-task results in whatever order the renders completed. -/
def sortGenerated (l : List ArticleResult) : List ArticleResult :=
  List.insertionSort (fun a b => a.idx ≤ b.idx) l

/-- The fan-in step: filter out failures, then sort by sequence index. -/
def collectGenerated (results : List (Option ArticleResult)) : List ArticleResult :=
  sortGenerated (results.filterMap id)

/-! ## Content-hash dedup (src/pdf_generator.py, lines 209-214) -/

/-- From `pdf_generator.py` lines 210-214: the shared `seen_hashes` set, guarded by
`seen_lock`, makes each check-then-insert atomic; the concurrent execution is
therefore equivalent to processing the renders sequentially in the order in
which they performed their fingerprint check.  Each element of `renders` is
`(idx, fingerprint)` in that order; a render whose fingerprint is already seen
returns nothing, otherwise it inserts the fingerprint and survives. -/
def runDedup : List (Nat × String) → List String → List (Nat × String)
  | [], _ => []
  | (i, h) :: rest, seen =>
    if h ∈ seen then runDedup rest seen
    else (i, h) :: runDedup rest (h :: seen)

/-! ## Rectangle coordinate conversion (src/pdf_generator.py, lines 22-25 and 111-148) -/

/-- From `pdf_generator.py` line 25: `PT_PER_PX = 72.0 / 96.0`. -/
def ptPerPx : ℚ := 72 / 96

/-- From `pdf_generator.py` line 23. -/
def a4WidthPx : Nat := 794

/-- From `pdf_generator.py` line 24. -/
def a4HeightPx : Nat := 1123

/-- From `pdf_generator.py` lines 124-144 (the JavaScript evaluated per TOC row):
from the row's absolute CSS-pixel top/bottom and horizontal extent, compute the
contents sub-page index and the rectangle in PDF points with a bottom-left
origin.  Real-number arithmetic is modelled exactly over `ℚ`. -/
def extractIndexLinkRect (left right absTop absBottom pageH : ℚ) : ℤ × List ℚ :=
  let pageIndex : ℤ := Int.floor (absTop / pageH)
  let topOnPage : ℚ := absTop - (pageIndex : ℚ) * pageH
  let bottomOnPage : ℚ := absBottom - (pageIndex : ℚ) * pageH
  let x1 := left
  let x2 := right
  let y1 := pageH - bottomOnPage
  let y2 := pageH - topOnPage
  (pageIndex, [x1 * ptPerPx, y1 * ptPerPx, x2 * ptPerPx, y2 * ptPerPx])

/-- Modelled from the spec's wording of the coordinate contract: page
`floor(T / H)` and rectangle
`[left·(72/96), (H − (B − floor(T/H)·H))·(72/96), right·(72/96), (H − (T − floor(T/H)·H))·(72/96)]`. -/
def specLinkRect (left right T B H : ℚ) : ℤ × List ℚ :=
  (Int.floor (T / H),
   [left * (72 / 96),
    (H - (B - (Int.floor (T / H) : ℚ) * H)) * (72 / 96),
    right * (72 / 96),
    (H - (T - (Int.floor (T / H) : ℚ) * H)) * (72 / 96)])

/-! ## URL normalization and the crawl loop (src/url_discovery.py) -/

/-- Char-level test that `needle` occurs at the start of `hay`. -/
def startsWithChars : List Char → List Char → Bool
  | [], _ => true
  | _ :: _, [] => false
  | a :: as, b :: bs => a == b && startsWithChars as bs

/-- Char-level substring test, the meaning of Python's `needle in hay`. -/
def hasSubChars (needle : List Char) : List Char → Bool
  | [] => needle.isEmpty
  | c :: t => startsWithChars needle (c :: t) || hasSubChars needle t

/-- String containment: Python's `needle in hay`. -/
def strHas (hay needle : String) : Bool :=
  hasSubChars needle.data hay.data

/-- Python's `s.lower()`, char by char (the URLs at stake are ASCII). -/
def lowerStr (s : String) : String :=
  String.mk (s.data.map Char.toLower)

/-- Python's `s.rstrip("/")`: drop every trailing slash. -/
def rstripSlash (s : String) : String :=
  String.mk ((s.data.reverse.dropWhile (fun c => c == '/')).reverse)

/-- A parsed URL, the result of `urllib.parse.urlparse` on an absolute URL
(after `urljoin`); `params` is never consulted by this code and is omitted. -/
structure Url where
  scheme : String
  netloc : String
  path : String
  query : String
  fragment : String
deriving DecidableEq

/-- The string form of a URL that carries no query or fragment — exactly the
shape of `clean_url = f"{scheme}://{netloc}{path}"` built at
`url_discovery.py` line 52. -/
def renderUrl (u : Url) : String :=
  u.scheme ++ "://" ++ u.netloc ++ u.path

/-- From `url_discovery.py` lines 51-52: keep scheme and netloc, strip the
trailing slashes of the path, drop query and fragment. -/
def cleanUrl (u : Url) : Url :=
  { scheme := u.scheme, netloc := u.netloc, path := rstripSlash u.path,
    query := "", fragment := "" }

/-- From `url_discovery.py` lines 22-28. -/
def excludedPatterns : List String :=
  ["/search", "/downloads", "/download/",
   "/forums/", "/bug-reporting/",
   "/account/", "/contact/",
   "#",
   ".pdf", ".zip", ".dmg"]

/-- From `url_discovery.py` lines 12-34 (`_is_valid_design_url`), applied to an
already-cleaned URL: the pattern must occur in the slash-stripped path, and no
excluded pattern may occur in the lower-cased URL string. -/
def isValidDesignUrl (u : Url) (pattern : String) : Bool :=
  let path := rstripSlash u.path
  if !(strHas path pattern) then false
  else !(excludedPatterns.any (fun p => strHas (lowerStr (renderUrl u)) p))

/-- From `url_discovery.py` lines 37-57 (`_discover_links_on_page`): each href
(already resolved against the base by `urljoin`; the CSS selector pre-filter is
subsumed by the validity check's pattern test together with the `web`
abstraction) is cleaned and kept when valid.  The Python function returns a
set; here the order is the iteration order, and duplicates are harmless because
the enqueue step skips URLs already queued. -/
def discoverLinks (links : List Url) (pattern : String) : List Url :=
  (links.map cleanUrl).filter (fun u => isValidDesignUrl u pattern)

/-- Python `depth_map.get(current_url, 0)` over an association list. -/
def lookupDepth (m : List (Url × Nat)) (u : Url) : Nat :=
  ((m.find? (fun e => e.1 == u)).map Prod.snd).getD 0

/-- Set insertion for the `discovered_urls` set (membership is all that the
claims consume; the list keeps first-insertion order). -/
def insertUniq (u : Url) (l : List Url) : List Url :=
  if u ∈ l then l else l ++ [u]

/-- From `url_discovery.py` lines 115-118: enqueue each new link not already
visited or queued, recording its depth. -/
def enqueueLinks (visited : List Url) (newDepth : Nat) :
    List Url → List Url → List (Url × Nat) → List Url × List (Url × Nat)
  | [], toVisit, depthMap => (toVisit, depthMap)
  | l :: ls, toVisit, depthMap =>
    if l ∈ visited ∨ l ∈ toVisit then
      enqueueLinks visited newDepth ls toVisit depthMap
    else
      enqueueLinks visited newDepth ls (toVisit ++ [l]) ((l, newDepth) :: depthMap)

/-- From `url_discovery.py` lines 91-127: the crawl loop.  `web u` is `none`
when visiting `u` fails (the `except` path: the URL stays visited but is not
discovered) and `some links` on success.  Python pops an arbitrary element of
the `urls_to_visit` set; the model resolves that nondeterminism by popping the
head of the queue list — the dedup facts proved below do not depend on the pop
order.  `fuel` bounds the number of loop iterations. -/
def crawlLoop (web : Url → Option (List Url)) (pattern : String)
    (maxDepth maxPages : Nat) :
    Nat → List Url → List Url → List Url → List (Url × Nat) → List Url
  | 0, discovered, _, _, _ => discovered
  | fuel + 1, discovered, toVisit, visited, depthMap =>
    if maxPages ≤ discovered.length then discovered
    else
      match toVisit with
      | [] => discovered
      | current :: rest =>
        if current ∈ visited then
          crawlLoop web pattern maxDepth maxPages fuel discovered rest visited depthMap
        else
          let depth := lookupDepth depthMap current
          let visited2 := current :: visited
          match web current with
          | none =>
            crawlLoop web pattern maxDepth maxPages fuel discovered rest visited2 depthMap
          | some links =>
            let discovered2 := insertUniq current discovered
            if depth < maxDepth then
              let next :=
                enqueueLinks visited2 (depth + 1) (discoverLinks links pattern)
                  rest depthMap
              crawlLoop web pattern maxDepth maxPages fuel discovered2 next.1 visited2 next.2
            else
              crawlLoop web pattern maxDepth maxPages fuel discovered2 rest visited2 depthMap

/-- From `url_discovery.py` lines 83-91: the crawl starts from the raw,
un-normalized `start_url` at depth 0. -/
def crawl (web : Url → Option (List Url)) (pattern : String) (startUrl : Url)
    (maxDepth maxPages fuel : Nat) : List Url :=
  crawlLoop web pattern maxDepth maxPages fuel [] [startUrl] [] [(startUrl, 0)]

/-- Two URLs differ only by fragment or by trailing slashes of the path. -/
def differOnlyByFragmentOrSlash (u v : Url) : Prop :=
  u.scheme = v.scheme ∧ u.netloc = v.netloc ∧
    rstripSlash u.path = rstripSlash v.path ∧ u.query = v.query

instance (u v : Url) : Decidable (differOnlyByFragmentOrSlash u v) := by
  unfold differOnlyByFragmentOrSlash
  infer_instance

/-- Seed URL with a trailing slash, as a user would pass it. -/
def seedUrl : Url :=
  { scheme := "https", netloc := "developer.apple.com",
    path := "/design/colors/", query := "", fragment := "" }

/-- A link on the seed page back to the seed itself, with a fragment. -/
def seedSelfLink : Url :=
  { scheme := "https", netloc := "developer.apple.com",
    path := "/design/colors/", query := "", fragment := "main" }

/-- The normalized form of the seed: trailing slash stripped, no fragment. -/
def seedNormalized : Url :=
  { scheme := "https", netloc := "developer.apple.com",
    path := "/design/colors", query := "", fragment := "" }

/-- A two-page web: the seed page links back to itself (with a fragment), and
the page at the normalized URL loads fine with no links. -/
def demoWeb : Url → Option (List Url) :=
  fun u =>
    if u = seedUrl then some [seedSelfLink]
    else if u = seedNormalized then some []
    else none

/-- The discovered set of crawling `demoWeb` with the defaults
(`url_pattern = "/design/"`, `max_depth = 2`, `max_pages = 500`). -/
def demoCrawl : List Url :=
  crawl demoWeb "/design/" seedUrl 2 500 5

/-! ## Theorems -/

/-- C1: for three sections with page counts 2, 1, 3, a cover of 1 page, and a
contents measurement that converges to 1 page, the stored starting pages are
2, 4, 5, the displayed starting page numbers on the contents page are 3, 5, 6,
and the 0-based bookmark target pages produced by the merge are 2, 4, 5. -/
theorem end_to_end_pagination_example :
    computePageNumbers 1 [2, 1, 3] = [2, 4, 5] ∧
    contentsIteration (fun _ => 1) = (1, true) ∧
    (displaySectionsInfo
        (List.zip ["A", "B", "C"] (computePageNumbers 1 [2, 1, 3])) 1).map Prod.snd
      = [3, 5, 6] ∧
    (mergeBookmarks
        (List.zip ["A", "B", "C"] (computePageNumbers 1 [2, 1, 3])) 3 1).map Prod.snd
      = [2, 4, 5] := by
  decide

/-- C9: the rectangle handed to the PDF link primitive sits on contents
sub-page `floor(T / H)` and equals the spec's formula, converting CSS pixels
(96 per inch, top-left origin) to PDF points (72 per inch, bottom-left
origin). -/
theorem coordinate_conversion_correct (left right T B H : ℚ) :
    extractIndexLinkRect left right T B H = specLinkRect left right T B H := by
  simp only [extractIndexLinkRect, specLinkRect, ptPerPx]

/-- C2 counterexample: the measured-page-count function `min (n + 1) 5` is
non-decreasing and bounded (by 5), yet the 3-attempt iteration does not reach
a fixed point: it ends with contents page count 4 while `f 4 = 5`. -/
theorem pagination_fixed_point_counterexample :
    Monotone (fun n => min (n + 1) 5) ∧
    (∀ n, min (n + 1) 5 ≤ 5) ∧
    (contentsIteration (fun n => min (n + 1) 5)).2 = false ∧
    min ((contentsIteration (fun n => min (n + 1) 5)).1 + 1) 5
      ≠ (contentsIteration (fun n => min (n + 1) 5)).1 := by
  refine ⟨fun a b hab => min_le_min (by omega) le_rfl,
    fun n => min_le_right _ _, by decide, by decide⟩

/-- C2 amended: for every measured-page-count function that is non-decreasing
and bounded by the attempt count 3, the contents iteration detects a fixed
point within its 3 attempts, and the final contents page count is a fixed
point of the measurement. -/
theorem pagination_fixed_point_bounded (f : Nat → Nat) (hmono : Monotone f)
    (hb : ∀ n, f n ≤ 3) :
    (contentsIteration f).2 = true ∧
    f (contentsIteration f).1 = (contentsIteration f).1 := by
  by_cases h1 : f 1 = 1
  · simp [contentsIteration, contentsLoop, h1]
  · by_cases h2 : f (f 1) = f 1
    · simp [contentsIteration, contentsLoop, h1, h2]
    · by_cases h3 : f (f (f 1)) = f (f 1)
      · simp [contentsIteration, contentsLoop, h1, h2, h3]
      · exfalso
        by_cases hz : f 1 = 0
        · have h01 : f 0 ≤ f 1 := hmono (Nat.zero_le 1)
          apply h2
          rw [hz]
          omega
        · have hA : f 1 ≤ f (f 1) := hmono (by omega)
          have hb1 := hb 1
          have hbf1 := hb (f 1)
          have hf1 : f 1 = 2 ∧ f (f 1) = 3 := by omega
          have hB : f (f 1) ≤ f (f (f 1)) := hmono (by omega)
          have hbff1 := hb (f (f 1))
          exact h3 (by omega)

/-- Witness for the amended C2 theorem at the constant measurement 1. -/
theorem pagination_fixed_point_bounded_witness :
    (contentsIteration (fun _ => 1)).2 = true ∧
    (fun _ : Nat => 1) (contentsIteration (fun _ => 1)).1
      = (contentsIteration (fun _ => 1)).1 :=
  pagination_fixed_point_bounded (fun _ => 1) monotone_const (fun _ => by norm_num)

/-- C4 counterexample: with one section whose stored page number is 2 and a
one-page contents, the displayed starting page is 3 but the merge's bookmark
target is 2, not `(3 - 1) + 1 = 3` as the claim's formula would give. -/
theorem bookmark_target_formula_counterexample :
    (displaySectionsInfo [("A", 2)] 1).map Prod.snd = [3] ∧
    (mergeBookmarks [("A", 2)] 1 1).map Prod.snd = [2] ∧
    ((2 : Int) ≠ (3 - 1) + 1) := by
  decide

/-- C4 amended: the bookmark target is `(stored page number − 1) + contents
page count`, which equals the displayed starting page minus one (when the
contents page count used for display equals the one used by the merge). -/
theorem bookmark_target_eq_displayed_sub_one (info : List (String × Nat))
    (indexPages i : Nat) (s : String × Nat) (h : info[i]? = some s) :
    (displaySectionsInfo info indexPages)[i]? = some (s.1, s.2 + indexPages) ∧
    (mergeBookmarks info info.length indexPages)[i]?
      = some (s.1, ((s.2 + indexPages : Nat) : Int) - 1) := by
  constructor
  · simp [displaySectionsInfo, List.getElem?_map, h]
  · simp only [mergeBookmarks, List.take_length, List.getElem?_map, h,
      Option.map_some, bookmarkDestPage]
    refine congrArg some (Prod.ext rfl ?_)
    push_cast
    ring

/-- Witness for the amended C4 theorem. -/
theorem bookmark_target_eq_displayed_sub_one_witness :
    (displaySectionsInfo [("A", 2)] 1)[0]? = some ("A", 2 + 1) ∧
    (mergeBookmarks [("A", 2)] ([("A", 2)] : List (String × Nat)).length 1)[0]?
      = some ("A", ((2 + 1 : Nat) : Int) - 1) :=
  bookmark_target_eq_displayed_sub_one [("A", 2)] 1 0 ("A", 2) (by decide)

/-- C8: if the annotate-and-replace phase is interrupted anywhere after the
initial merge write and before the rename, the file at the merged path is
still the complete link-free merged document with its bookmarks (the temp file
in the same directory absorbs the partial write), and the merge reports
failure. -/
theorem atomic_replace_preserves_merged (fs : String → Option MergedDoc)
    (mergedPath tmpPath : String) (bms : List (String × Int))
    (links : List (Int × Int × List ℚ)) (fp : FailPoint)
    (hPath : tmpPath ≠ mergedPath) (hFail : fp ≠ FailPoint.noFail) :
    (mergeWritePhase fs mergedPath tmpPath bms links false fp).1 mergedPath
      = some (MergedDoc.mergedOnly bms) ∧
    (mergeWritePhase fs mergedPath tmpPath bms links false fp).2 = none := by
  cases fp with
  | noFail => exact absurd rfl hFail
  | beforeTempWrite => simp [mergeWritePhase]
  | duringTempWrite => simp [mergeWritePhase, hPath.symm]
  | beforeRename => simp [mergeWritePhase, hPath.symm]

/-- Witness for the C8 theorem with concrete paths and an interrupted temp
write. -/
theorem atomic_replace_preserves_merged_witness :
    (mergeWritePhase (fun _ => none) "out/m.pdf" "out/merged_tmp.pdf"
        [("A", 2)] [] false FailPoint.duringTempWrite).1 "out/m.pdf"
      = some (MergedDoc.mergedOnly [("A", 2)]) ∧
    (mergeWritePhase (fun _ => none) "out/m.pdf" "out/merged_tmp.pdf"
        [("A", 2)] [] false FailPoint.duringTempWrite).2 = none :=
  atomic_replace_preserves_merged (fun _ => none) "out/m.pdf" "out/merged_tmp.pdf"
    [("A", 2)] [] FailPoint.duringTempWrite (by decide) (by decide)

/-- C10: when the TOC link list is empty the annotate/replace phase is skipped
entirely — the merged path holds exactly the document of the initial
append-and-write pass with all its bookmarks, every other path (in particular
any would-be temp path) is untouched, and the merge still returns the merged
path. -/
theorem empty_toc_links_skips_annotate (fs : String → Option MergedDoc)
    (mergedPath tmpPath : String) (bms : List (String × Int))
    (links : List (Int × Int × List ℚ)) (fp : FailPoint) :
    (mergeWritePhase fs mergedPath tmpPath bms links true fp).1 mergedPath
      = some (MergedDoc.mergedOnly bms) ∧
    (∀ q, q ≠ mergedPath →
      (mergeWritePhase fs mergedPath tmpPath bms links true fp).1 q = fs q) ∧
    (mergeWritePhase fs mergedPath tmpPath bms links true fp).2
      = some mergedPath := by
  refine ⟨by simp [mergeWritePhase], fun q hq => by simp [mergeWritePhase, hq],
    by simp [mergeWritePhase]⟩

/-- Witness for the C10 theorem: concrete paths, the untouched path checked at
the temp name. -/
theorem empty_toc_links_skips_annotate_witness :
    (mergeWritePhase (fun _ => none) "out/m.pdf" "out/merged_tmp.pdf"
        [("A", 2)] [] true FailPoint.noFail).1 "out/m.pdf"
      = some (MergedDoc.mergedOnly [("A", 2)]) ∧
    (mergeWritePhase (fun _ => none) "out/m.pdf" "out/merged_tmp.pdf"
        [("A", 2)] [] true FailPoint.noFail).1 "out/merged_tmp.pdf" = none ∧
    (mergeWritePhase (fun _ => none) "out/m.pdf" "out/merged_tmp.pdf"
        [("A", 2)] [] true FailPoint.noFail).2 = some "out/m.pdf" := by
  have h := empty_toc_links_skips_annotate (fun _ => none) "out/m.pdf"
    "out/merged_tmp.pdf" [("A", 2)] [] FailPoint.noFail
  exact ⟨h.1, h.2.1 "out/merged_tmp.pdf" (by decide), h.2.2⟩

/-- C3: whenever a TOC link passes all the guards and is actually added, its
0-based destination page equals the outline (bookmark) target of the section it
points at — both are `(sections_info page − 1) + contentsPageCount`. -/
theorem bookmark_link_consistency (info : List (String × Nat))
    (coverPages indexPages numPages : Nat) (l : TocLink)
    (src dest : Int) (r : List ℚ)
    (h : processTocLink info coverPages indexPages numPages l = some (src, dest, r)) :
    ((mergeBookmarks info info.length indexPages).map Prod.snd)[l.idx.toNat - 1]?
      = some dest := by
  unfold processTocLink at h
  split at h
  · exact absurd h (by simp)
  · split at h
    · exact absurd h (by simp)
    · split at h
      · exact absurd h (by simp)
      · split at h
        · exact absurd h (by simp)
        · rename_i hpos hr hlen s hs
          dsimp only at h
          split at h
          · exact absurd h (by simp)
          · split at h
            · exact absurd h (by simp)
            · simp only [Option.some.injEq, Prod.mk.injEq] at h
              obtain ⟨h1, h2, h3⟩ := h
              subst h2
              rw [List.get?_eq_getElem?] at hs
              simp [mergeBookmarks, List.take_length, List.getElem?_map, hs]

/-- Witness for the C3 theorem at a concrete link and section table. -/
theorem bookmark_link_consistency_witness :
    ((mergeBookmarks [("A", 2)] ([("A", 2)] : List (String × Nat)).length 1).map
        Prod.snd)[(⟨1, 0, some [0, 0, 10, 10]⟩ : TocLink).idx.toNat - 1]?
      = some 2 :=
  bookmark_link_consistency [("A", 2)] 1 1 10 ⟨1, 0, some [0, 0, 10, 10]⟩
    1 2 [0, 0, 10, 10] (by decide)

/-- Helper for C7: the survivors of the dedup fold carrying fingerprint `fp`
are empty when `fp` was already seen, and otherwise exactly the first render
in check order with that fingerprint. -/
theorem runDedup_filter (fp : String) :
    ∀ (renders : List (Nat × String)) (seen : List String),
      (runDedup renders seen).filter (fun r => r.2 == fp)
        = if fp ∈ seen then [] else (renders.find? (fun r => r.2 == fp)).toList := by
  intro renders
  induction renders with
  | nil => intro seen; simp [runDedup]
  | cons a rest ih =>
    intro seen
    obtain ⟨i, hsh⟩ := a
    by_cases hmem : hsh ∈ seen
    · by_cases hfp : hsh = fp
      · subst hfp
        simp [runDedup, hmem, ih, List.find?]
      · have hb : (hsh == fp) = false := by simp [hfp]
        simp [runDedup, hmem, ih, List.find?, hb]
    · by_cases hfp : hsh = fp
      · subst hfp
        have hseen2 : hsh ∈ hsh :: seen := List.mem_cons_self hsh seen
        simp [runDedup, hmem, List.filter, ih, hseen2, List.find?]
      · have : (fp ∈ hsh :: seen) = (fp ∈ seen) := by
          simp [List.mem_cons, Ne.symm hfp]
        have hb : (hsh == fp) = false := by simp [hfp]
        simp [runDedup, hmem, List.filter, ih, this, List.find?, hb]

/-- C7: among the renders processed through the shared seen-fingerprint set,
exactly one render with a given fingerprint survives — the first one to
perform the check-and-insert — and every later render with that fingerprint
yields nothing. -/
theorem content_dedup_first_wins (renders : List (Nat × String)) (fp : String)
    (h : fp ∈ renders.map Prod.snd) :
    (runDedup renders []).filter (fun r => r.2 == fp)
      = (renders.find? (fun r => r.2 == fp)).toList ∧
    (runDedup renders []).countP (fun r => r.2 == fp) = 1 := by
  have hf := runDedup_filter fp renders []
  simp only [List.not_mem_nil, if_false] at hf
  refine ⟨hf, ?_⟩
  rw [List.countP_eq_length_filter, hf]
  have hsome : (renders.find? (fun r => r.2 == fp)).isSome := by
    rw [List.find?_isSome]
    obtain ⟨x, hx, hxe⟩ := List.mem_map.mp h
    exact ⟨x, hx, by simp [hxe]⟩
  obtain ⟨v, hv⟩ := Option.isSome_iff_exists.mp hsome
  simp [hv]

/-- Witness for the C7 theorem: three renders, the second and third sharing a
fingerprint; only the second survives with it. -/
theorem content_dedup_first_wins_witness :
    ((runDedup [(1, "h1"), (2, "h2"), (3, "h2")] []).filter (fun r => r.2 == "h2")
      = ([(1, "h1"), (2, "h2"), (3, "h2")].find? (fun r => r.2 == "h2")).toList) ∧
    (runDedup [(1, "h1"), (2, "h2"), (3, "h2")] []).countP (fun r => r.2 == "h2")
      = 1 :=
  content_dedup_first_wins [(1, "h1"), (2, "h2"), (3, "h2")] "h2" (by decide)

/-- C6: for any two completion orders of the same per-URL results (one a
permutation of the other), whose successful results carry pairwise-distinct
discovery indices, the final sorted section list is identical, and it is
strictly increasing in the discovery index — so a URL discovered earlier
always yields an earlier section. -/
theorem completion_order_independence (l1 l2 : List (Option ArticleResult))
    (hperm : l1.Perm l2)
    (hnodup : ((l1.filterMap id).map ArticleResult.idx).Nodup) :
    collectGenerated l2 = collectGenerated l1 ∧
    List.Pairwise (fun a b => a.idx < b.idx) (collectGenerated l1) := by
  haveI hTot : IsTotal ArticleResult (fun a b => a.idx ≤ b.idx) :=
    ⟨fun a b => Nat.le_total a.idx b.idx⟩
  haveI hTrans : IsTrans ArticleResult (fun a b => a.idx ≤ b.idx) :=
    ⟨fun _ _ _ => Nat.le_trans⟩
  haveI hAnti : IsAntisymm ArticleResult (fun a b => a.idx < b.idx) :=
    ⟨fun a b h h' => absurd h' (Nat.lt_asymm h)⟩
  have hpermAB : (l1.filterMap id).Perm (l2.filterMap id) :=
    List.Perm.filterMap id hperm
  have hsort1 : List.Sorted (fun a b : ArticleResult => a.idx ≤ b.idx)
      (sortGenerated (l1.filterMap id)) := List.sorted_insertionSort _ _
  have hsort2 : List.Sorted (fun a b : ArticleResult => a.idx ≤ b.idx)
      (sortGenerated (l2.filterMap id)) := List.sorted_insertionSort _ _
  have hperm1 : (sortGenerated (l1.filterMap id)).Perm (l1.filterMap id) :=
    List.perm_insertionSort _ _
  have hperm2 : (sortGenerated (l2.filterMap id)).Perm (l2.filterMap id) :=
    List.perm_insertionSort _ _
  have hpermSS : (sortGenerated (l2.filterMap id)).Perm
      (sortGenerated (l1.filterMap id)) :=
    (hperm2.trans (hpermAB.symm)).trans hperm1.symm
  have hnd1 : ((sortGenerated (l1.filterMap id)).map ArticleResult.idx).Nodup :=
    ((hperm1.map ArticleResult.idx).nodup_iff).mpr hnodup
  have hnd2 : ((sortGenerated (l2.filterMap id)).map ArticleResult.idx).Nodup :=
    ((hpermSS.map ArticleResult.idx).nodup_iff).mpr hnd1
  have hlt1 : List.Pairwise (fun a b : ArticleResult => a.idx < b.idx)
      (sortGenerated (l1.filterMap id)) := by
    have hne := List.pairwise_map.mp hnd1
    exact List.Pairwise.imp (fun h => lt_of_le_of_ne h.1 h.2) (hsort1.and hne)
  have hlt2 : List.Pairwise (fun a b : ArticleResult => a.idx < b.idx)
      (sortGenerated (l2.filterMap id)) := by
    have hne := List.pairwise_map.mp hnd2
    exact List.Pairwise.imp (fun h => lt_of_le_of_ne h.1 h.2) (hsort2.and hne)
  exact ⟨List.eq_of_perm_of_sorted hpermSS hlt2 hlt1, hlt1⟩

/-- Witness for the C6 theorem: two renders completing in opposite orders
around a failed one produce the same sorted section list. -/
theorem completion_order_independence_witness :
    (collectGenerated [some ⟨1, "A", "pa"⟩, none, some ⟨2, "B", "pb"⟩]
      = collectGenerated [some ⟨2, "B", "pb"⟩, none, some ⟨1, "A", "pa"⟩]) ∧
    List.Pairwise (fun a b : ArticleResult => a.idx < b.idx)
      (collectGenerated [some ⟨2, "B", "pb"⟩, none, some ⟨1, "A", "pa"⟩]) :=
  completion_order_independence
    [some ⟨2, "B", "pb"⟩, none, some ⟨1, "A", "pa"⟩]
    [some ⟨1, "A", "pa"⟩, none, some ⟨2, "B", "pb"⟩]
    (by decide) (by decide)

/-- Helper: dropping a satisfying run twice is the same as dropping it once. -/
theorem dropWhile_self_idem (p : Char → Bool) (l : List Char) :
    (l.dropWhile p).dropWhile p = l.dropWhile p := by
  induction l with
  | nil => simp
  | cons c t ih =>
    by_cases hc : p c
    · simp [List.dropWhile, hc, ih]
    · simp [List.dropWhile, hc]

/-- Helper: stripping trailing slashes is idempotent. -/
theorem rstripSlash_idem (s : String) :
    rstripSlash (rstripSlash s) = rstripSlash s := by
  simp [rstripSlash, dropWhile_self_idem]

/-- Helper: URL normalization is idempotent. -/
theorem cleanUrl_idem (u : Url) : cleanUrl (cleanUrl u) = cleanUrl u := by
  simp [cleanUrl, rstripSlash_idem]

/-- Helper: every URL kept by the link-discovery filter is in normal form. -/
theorem discoverLinks_cleanFixed (links : List Url) (pattern : String) :
    ∀ u ∈ discoverLinks links pattern, cleanUrl u = u := by
  intro u hu
  simp only [discoverLinks, List.mem_filter, List.mem_map] at hu
  obtain ⟨⟨v, _, rfl⟩, _⟩ := hu
  exact cleanUrl_idem v

/-- Helper: the frontier after enqueuing grows only by enqueued links. -/
theorem enqueueLinks_mem (visited : List Url) (d : Nat) :
    ∀ (ls toVisit : List Url) (dm : List (Url × Nat)) (u : Url),
      u ∈ (enqueueLinks visited d ls toVisit dm).1 → u ∈ toVisit ∨ u ∈ ls := by
  intro ls
  induction ls with
  | nil => intro toVisit dm u hu; exact Or.inl hu
  | cons l t ih =>
    intro toVisit dm u hu
    simp only [enqueueLinks] at hu
    by_cases hl : l ∈ visited ∨ l ∈ toVisit
    · rw [if_pos hl] at hu
      rcases ih _ _ _ hu with h | h
      · exact Or.inl h
      · exact Or.inr (List.mem_cons_of_mem _ h)
    · rw [if_neg hl] at hu
      rcases ih _ _ _ hu with h | h
      · rcases List.mem_append.mp h with h' | h'
        · exact Or.inl h'
        · have hul : u = l := by simpa using h'
          exact Or.inr (hul ▸ List.mem_cons_self l t)
      · exact Or.inr (List.mem_cons_of_mem _ h)

/-- Helper: membership in the discovered set after insertion. -/
theorem insertUniq_mem (v : Url) (l : List Url) (u : Url)
    (h : u ∈ insertUniq v l) : u = v ∨ u ∈ l := by
  by_cases hv : v ∈ l
  · simp only [insertUniq, if_pos hv] at h
    exact Or.inr h
  · simp only [insertUniq, if_neg hv] at h
    rcases List.mem_append.mp h with h' | h'
    · exact Or.inr h'
    · exact Or.inl (by simpa using h')

/-- Helper: the one-step unfolding of the crawl loop at positive fuel. -/
theorem crawlLoop_succ (web : Url → Option (List Url)) (pattern : String)
    (maxDepth maxPages n : Nat) (discovered toVisit visited : List Url)
    (depthMap : List (Url × Nat)) :
    crawlLoop web pattern maxDepth maxPages (n + 1) discovered toVisit visited
        depthMap
      = if maxPages ≤ discovered.length then discovered
        else
          match toVisit with
          | [] => discovered
          | current :: rest =>
            if current ∈ visited then
              crawlLoop web pattern maxDepth maxPages n discovered rest visited
                depthMap
            else
              let depth := lookupDepth depthMap current
              let visited2 := current :: visited
              match web current with
              | none =>
                crawlLoop web pattern maxDepth maxPages n discovered rest visited2
                  depthMap
              | some links =>
                let discovered2 := insertUniq current discovered
                if depth < maxDepth then
                  let next :=
                    enqueueLinks visited2 (depth + 1) (discoverLinks links pattern)
                      rest depthMap
                  crawlLoop web pattern maxDepth maxPages n discovered2 next.1
                    visited2 next.2
                else
                  crawlLoop web pattern maxDepth maxPages n discovered2 rest
                    visited2 depthMap := rfl

/-- Crawl-loop invariant: every URL the loop ever discovers is either an
element of the initial frontier or depth map (in particular the raw seed) or
is in normal form (its own `cleanUrl`), because every enqueued link passed
through `cleanUrl`. -/
theorem crawlLoop_discovered_clean (web : Url → Option (List Url))
    (pattern : String) (maxDepth maxPages : Nat) (seed : Url) :
    ∀ (fuel : Nat) (discovered toVisit visited : List Url)
      (depthMap : List (Url × Nat)),
      (∀ u ∈ discovered, u = seed ∨ cleanUrl u = u) →
      (∀ u ∈ toVisit, u = seed ∨ cleanUrl u = u) →
      ∀ u ∈ crawlLoop web pattern maxDepth maxPages fuel discovered toVisit
          visited depthMap,
        u = seed ∨ cleanUrl u = u := by
  intro fuel
  induction fuel with
  | zero => intro discovered toVisit visited depthMap hd _ u hu; exact hd u hu
  | succ n ih =>
    intro discovered toVisit visited depthMap hd htv u hu
    rw [crawlLoop_succ] at hu
    by_cases hcap : maxPages ≤ discovered.length
    · rw [if_pos hcap] at hu
      exact hd u hu
    · rw [if_neg hcap] at hu
      match htoVisit : toVisit with
      | [] =>
        dsimp only at hu
        exact hd u hu
      | current :: rest =>
        dsimp only at hu
        have hdcur : current = seed ∨ cleanUrl current = current :=
          htv current (List.mem_cons_self current rest)
        have htvrest : ∀ v ∈ rest, v = seed ∨ cleanUrl v = v :=
          fun v hv => htv v (List.mem_cons_of_mem _ hv)
        by_cases hvis : current ∈ visited
        · rw [if_pos hvis] at hu
          exact ih discovered rest visited depthMap hd htvrest u hu
        · rw [if_neg hvis] at hu
          have hdisc2 : ∀ v ∈ insertUniq current discovered,
              v = seed ∨ cleanUrl v = v := by
            intro v hv
            rcases insertUniq_mem current discovered v hv with rfl | hv'
            · exact hdcur
            · exact hd v hv'
          match hweb : web current with
          | none =>
            rw [hweb] at hu
            dsimp only at hu
            exact ih discovered rest (current :: visited) depthMap hd htvrest u hu
          | some links =>
            rw [hweb] at hu
            dsimp only at hu
            by_cases hdep : lookupDepth depthMap current < maxDepth
            · rw [if_pos hdep] at hu
              refine ih _ _ _ _ hdisc2 ?_ u hu
              intro v hv
              rcases enqueueLinks_mem (current :: visited)
                  (lookupDepth depthMap current + 1)
                  (discoverLinks links pattern) rest depthMap v hv with h' | h'
              · exact htvrest v h'
              · exact Or.inr (discoverLinks_cleanFixed links pattern v h')
            · rw [if_neg hdep] at hu
              exact ih _ _ _ _ hdisc2 htvrest u hu

/-- C5 counterexample: crawling a seed URL that carries a trailing slash, whose
page links back to itself (with a fragment), puts both the raw seed and its
normalized form into the discovered set — two entries that differ only by a
trailing slash, because the seed is inserted without normalization. -/
theorem crawler_dedup_counterexample :
    seedUrl ∈ demoCrawl ∧ seedNormalized ∈ demoCrawl ∧
    seedUrl ≠ seedNormalized ∧
    differOnlyByFragmentOrSlash seedUrl seedNormalized := by
  decide

/-- C5 amended: among discovered URLs other than the verbatim seed, no two
distinct entries differ only by fragment or trailing slash — every
link-discovered URL is stored in normalized form, so the normalized path
string is a true identity for them.  The seed itself is inserted without
normalization and is exempt. -/
theorem crawler_dedup_nonseed (web : Url → Option (List Url)) (pattern : String)
    (startUrl : Url) (maxDepth maxPages fuel : Nat) (d1 d2 : Url)
    (h1 : d1 ∈ crawl web pattern startUrl maxDepth maxPages fuel)
    (h2 : d2 ∈ crawl web pattern startUrl maxDepth maxPages fuel)
    (hs1 : d1 ≠ startUrl) (hs2 : d2 ≠ startUrl)
    (hdiff : differOnlyByFragmentOrSlash d1 d2) : d1 = d2 := by
  have hstart : ∀ u ∈ [startUrl], u = startUrl ∨ cleanUrl u = u := by
    intro u hu
    exact Or.inl (by simpa using hu)
  have hc1 := crawlLoop_discovered_clean web pattern maxDepth maxPages startUrl
    fuel [] [startUrl] [] [(startUrl, 0)] (by simp) hstart d1 h1
  have hc2 := crawlLoop_discovered_clean web pattern maxDepth maxPages startUrl
    fuel [] [startUrl] [] [(startUrl, 0)] (by simp) hstart d2 h2
  have hf1 : cleanUrl d1 = d1 := hc1.resolve_left hs1
  have hf2 : cleanUrl d2 = d2 := hc2.resolve_left hs2
  obtain ⟨ha, hb, hc, _⟩ := hdiff
  calc d1 = cleanUrl d1 := hf1.symm
    _ = cleanUrl d2 := by simp [cleanUrl, ha, hb, hc]
    _ = d2 := hf2

/-- Witness for the amended C5 theorem on the demo web. -/
theorem crawler_dedup_nonseed_witness : seedNormalized = seedNormalized :=
  crawler_dedup_nonseed demoWeb "/design/" seedUrl 2 500 5
    seedNormalized seedNormalized (by decide) (by decide) (by decide)
    (by decide) (by decide)

/-! ## Scratch checks -/

example : computePageNumbers 1 [2, 1, 3] = [2, 4, 5] := by decide

example : contentsIteration (fun _ => 1) = (1, true) := by decide

example : contentsIteration (fun n => min (n + 1) 5) = (4, false) := by decide

example :
    (mergeBookmarks [("A", 2), ("B", 4), ("C", 5)] 3 1).map Prod.snd
      = [2, 4, 5] := by decide

example :
    processTocLink [("A", 2)] 1 1 10 ⟨1, 0, some [0, 0, 10, 10]⟩
      = some (1, 2, [0, 0, 10, 10]) := by decide

example : demoCrawl = [seedUrl, seedNormalized] := by decide

example : rstripSlash "/design/colors/" = "/design/colors" := by decide
